import Mathlib

/-!
Verification of the OpenAI-compatible Cloudflare worker pipeline

Shallow embedding, in Lean 4, of the request-processing pipeline of the
`openAICompatible-CloudFlareWorker-AI` repository:

* the Authenticator's bearer-token extraction (`src/middleware/auth.ts`,
  `verifyApiKey`, regex `^Bearer\s+(.+)$/i`);
* the Rate Limiter (`src/middleware/rateLimit.ts`, `checkRateLimit`);
* the Request Validator (`src/utils.ts`, `validateRequestBody`);
* token accounting (`src/utils.ts`, `calculateTokens`) and the
  non-streaming usage object (`src/controllers/chatController.ts`);
* the Completion Engine error paths (`src/services/aiService.ts`,
  `generateChatCompletion`) and the controller-boundary catch;
* the streaming transcoder (`src/controllers/chatController.ts`,
  `start` / `processChunk`).

External host primitives (the KV store, `JSON.parse`, `crypto.randomUUID`)
are modelled explicitly: the KV store as a function from keys to stored
records, `JSON.parse` + the `.response` truthiness test as an abstract
parameter `parse : String → ParseResult`, and `crypto.randomUUID` as a
counter of generated identifiers (distinct calls yield distinct values;
the counter records the call index).  JavaScript machine integers are
modelled as `Nat`: every quantity involved (epoch seconds, counts,
lengths) is a non-negative integer far below 2^53, where JS number
arithmetic is exact; the one JS subtraction that could go negative
(`now - data.timestamp`) is only ever compared with `≥ WINDOW_SIZE`, and
a negative value fails that test exactly as the truncated `Nat`
subtraction's `0` does.
-/

namespace CFW

/-! ## JavaScript string helpers -/

/-- The character class `\s` of JavaScript regular expressions:
whitespace characters, as listed by ECMA-262. -/
def isJsSpace (c : Char) : Bool :=
  c = ' ' || c = '\t' || c = '\n' || c = '\x0b' || c = '\x0c' || c = '\r' ||
  c = ' ' || c = ' ' ||
  (' ' ≤ c && c ≤ ' ') ||
  c = ' ' || c = ' ' || c = ' ' || c = ' ' ||
  c = '　' || c = '﻿'

/-- The ECMA-262 line terminators, the characters the regex `.` does not
match without the `s` flag. -/
def isLineTerm (c : Char) : Bool :=
  c = '\n' || c = '\r' || c = ' ' || c = ' '

/-! ## Authenticator: bearer-token capture

`verifyApiKey` (src/middleware/auth.ts) runs
`authHeader.match(/^Bearer\s+(.+)$/i)` and uses the first capture group.
`bearerCapture` computes that capture group under the ECMAScript
greedy-with-backtracking semantics of this particular pattern:

* the first six characters must spell `bearer` case-insensitively;
* `\s+` first consumes the maximal whitespace run after them;
* if a non-whitespace tail remains, `(.+)` must match it entirely, so
  the match succeeds iff the tail contains no line terminator, and the
  capture is the tail (backtracking into the whitespace run cannot help,
  because every longer candidate still contains the offending
  terminator);
* if the whole remainder is whitespace, backtracking hands the last
  whitespace character to `(.+)` provided at least one `\s` character is
  left for `\s+` and the last character is not a line terminator. -/
def bearerCapture (s : String) : Option String :=
  let cs := s.toList
  if (cs.take 6).map Char.toLower = "bearer".toList then
    let rest := cs.drop 6
    let ws := rest.takeWhile isJsSpace
    let tail := rest.drop ws.length
    if ws.isEmpty then none
    else if tail ≠ [] then
      if tail.all (fun c => !isLineTerm c) then some (String.mk tail) else none
    else
      match rest.getLast? with
      | some c => if 2 ≤ rest.length && !isLineTerm c then some (String.mk [c]) else none
      | none => none
  else none

/-! ## Rate limiter (src/middleware/rateLimit.ts) -/

/-- Remove the first occurrence of `pat` from `s`, leaving `s` unchanged
when `pat` does not occur: the semantics of JavaScript
`String.prototype.replace(searchString, '')` for a non-empty search
string. -/
def stripFirstOcc (pat : List Char) (s : List Char) : List Char :=
  match s with
  | [] => []
  | c :: cs =>
    if pat.isPrefixOf (c :: cs) then (c :: cs).drop pat.length
    else c :: stripFirstOcc pat cs

/-- The credential the rate limiter derives from the Authorization
header: `authHeader.replace('Bearer ', '')` (case-sensitive, first
occurrence only). -/
def limiterKey (authHeader : String) : String :=
  String.mk (stripFirstOcc "Bearer ".toList authHeader.toList)

/-- `const RATE_LIMIT = 100` -/
def RATE_LIMIT_CONST : Nat := 100

/-- `const WINDOW_SIZE = 60 * 60` -/
def WINDOW_SIZE : Nat := 60 * 60

/-- `interface RateLimitData { count: number; timestamp: number }` -/
structure RateLimitData where
  count : Nat
  timestamp : Nat
deriving DecidableEq, Repr

/-- `RateLimitInfo` returned to the caller for header propagation. -/
structure RateLimitInfo where
  remaining : Nat
  reset : Nat
  total : Nat
deriving DecidableEq, Repr

/-- Outcome of `checkRateLimit`: either the info record (request
allowed) or an error response with status, error type, message and extra
headers. -/
inductive RLOutcome where
  | info (i : RateLimitInfo)
  | errResp (status : Nat) (errType : String) (message : String)
      (headers : List (String × String))
deriving DecidableEq, Repr

/-- Is the outcome an error response? -/
def RLOutcome.isErr : RLOutcome → Bool
  | .info _ => false
  | .errResp _ _ _ _ => true

/-- The rate-limit KV namespace: each key maps to the stored
`RateLimitData` together with the `expirationTtl` it was written with. -/
abbrev Store := String → Option (RateLimitData × Nat)

/-- `checkRateLimit(request, env)` of src/middleware/rateLimit.ts,
with the Authorization header, the KV store contents and the current
epoch-second clock made explicit.  Returns the outcome and the store
after the call (`env.RATE_LIMIT_KV.put` writes the incremented record
with `expirationTtl: WINDOW_SIZE`). -/
def checkRateLimit (authHeader : Option String) (s : Store) (now : Nat) :
    RLOutcome × Store :=
  match authHeader with
  | none =>
    (.errResp 429 "rate_limit_error" "Missing API key for rate limiting" [], s)
  | some h =>
    let apiKey := limiterKey h
    if apiKey = "" then
      (.errResp 429 "rate_limit_error" "Missing API key for rate limiting" [], s)
    else
      let rateLimitKey := "ratelimit:" ++ apiKey
      let data : RateLimitData :=
        match s rateLimitKey with
        | some (d, _) => if WINDOW_SIZE ≤ now - d.timestamp then ⟨0, now⟩ else d
        | none => ⟨0, now⟩
      if RATE_LIMIT_CONST ≤ data.count then
        (.errResp 429 "rate_limit_error" "Rate limit exceeded"
          [("X-RateLimit-Limit", toString RATE_LIMIT_CONST),
           ("X-RateLimit-Remaining", "0"),
           ("X-RateLimit-Reset", toString (data.timestamp + WINDOW_SIZE))], s)
      else
        let d2 : RateLimitData := ⟨data.count + 1, data.timestamp⟩
        (.info ⟨RATE_LIMIT_CONST - d2.count, d2.timestamp + WINDOW_SIZE, RATE_LIMIT_CONST⟩,
         fun k => if k = rateLimitKey then some (d2, WINDOW_SIZE) else s k)

/-- A sequence of requests with one fixed Authorization header, at the
given epoch-second times, threading the KV store through. -/
def runRequests (authHeader : Option String) (s : Store) :
    List Nat → List RLOutcome × Store
  | [] => ([], s)
  | t :: ts =>
    let r := checkRateLimit authHeader s t
    let rest := runRequests authHeader r.2 ts
    (r.1 :: rest.1, rest.2)

/-! ## Request validator (src/utils.ts)

`validateRequestBody` receives the decoded JSON request body as an
untyped `any` value; `JValue` models decoded JSON values, and
JavaScript's truthiness and dynamic field access are made explicit
(accessing a property of a non-object yields `undefined`, modelled as
`none`; NaN does not arise from `JSON.parse` of finite literals and is
not modelled). -/

/-- A decoded JSON value. -/
inductive JValue where
  | jnull
  | jbool (b : Bool)
  | jnum (q : ℚ)
  | jstr (s : String)
  | jarr (elems : List JValue)
  | jobj (fields : List (String × JValue))

/-- JavaScript truthiness of a JSON value. -/
def JValue.truthy : JValue → Bool
  | .jnull => false
  | .jbool b => b
  | .jnum q => q ≠ 0
  | .jstr s => s ≠ ""
  | .jarr _ => true
  | .jobj _ => true

/-- Property access `v.name`: `some` when the field is present on an
object, `none` (JavaScript `undefined`) otherwise. -/
def JValue.getField (v : JValue) (name : String) : Option JValue :=
  match v with
  | .jobj fields => fields.lookup name
  | _ => none

/-- Truthiness of a possibly-`undefined` value (`!x` in JavaScript). -/
def truthyOpt : Option JValue → Bool
  | none => false
  | some v => v.truthy

/-- The payload of `createErrorResponse(message, type, param?, code?,
status = 400)` from src/utils.ts: the canonical error envelope plus the
HTTP status. -/
structure ErrResp where
  message : String
  errType : String
  param : Option String
  code : Option String
  status : Nat
deriving DecidableEq, Repr

/-- `createErrorResponse` with the default status 400 and no code, the
only form the validator uses. -/
def createErrorResponse (message errType : String) (param : String) : ErrResp :=
  ⟨message, errType, some param, none, 400⟩

/-- Does a message pass the per-message role check?  The source rejects
when `!message.role || !['system','user','assistant'].includes(message.role)`;
`includes` uses strict equality, so only the three exact strings pass
(and each of them is truthy). -/
def roleOk (m : JValue) : Bool :=
  match m.getField "role" with
  | some (.jstr r) => r = "system" || r = "user" || r = "assistant"
  | _ => false

/-- Does a message pass the per-message content check
(`!message.content` rejects)? -/
def contentOk (m : JValue) : Bool :=
  truthyOpt (m.getField "content")

/-- The `for (const [index, message] of body.messages.entries())` loop of
`validateRequestBody`: role check, then content check, short-circuiting
with the first offending index in the error message.  (The
`originalContent` comparison in the source only logs and never alters
the result.) -/
def validateMessages (msgs : List JValue) (index : Nat) : Option ErrResp :=
  match msgs with
  | [] => none
  | m :: rest =>
    if !roleOk m then
      some (createErrorResponse
        ("message at index " ++ toString index ++
          " has invalid role. Must be one of: system, user, assistant")
        "invalid_request_error" "messages")
    else if !contentOk m then
      some (createErrorResponse
        ("message at index " ++ toString index ++ " must have non-empty content string")
        "invalid_request_error" "messages")
    else validateMessages rest (index + 1)

/-- `validateRequestBody(body)` from src/utils.ts: `some` an error
envelope on the first failing check, `none` when the body is valid. -/
def validateRequestBody (body : JValue) : Option ErrResp :=
  if !truthyOpt (body.getField "model") then
    some (createErrorResponse "model is required" "invalid_request_error" "model")
  else
    match body.getField "messages" with
    | some (.jarr msgs) =>
      if msgs.length = 0 then
        some (createErrorResponse "messages array is required and cannot be empty"
          "invalid_request_error" "messages")
      else
        match validateMessages msgs 0 with
        | some e => some e
        | none =>
          if (match body.getField "temperature" with
              | none => false
              | some (.jnum q) => q < 0 || 2 < q
              | some _ => true) then
            some (createErrorResponse "temperature must be a number between 0 and 2"
              "invalid_request_error" "temperature")
          else if (match body.getField "max_tokens" with
              | none => false
              | some (.jnum q) => q < 1
              | some _ => true) then
            some (createErrorResponse "max_tokens must be a positive number"
              "invalid_request_error" "max_tokens")
          else if (match body.getField "stream" with
              | none => false
              | some (.jbool _) => false
              | some _ => true) then
            some (createErrorResponse "stream must be a boolean value"
              "invalid_request_error" "stream")
          else none
    | _ =>
      some (createErrorResponse "messages array is required and cannot be empty"
        "invalid_request_error" "messages")

/-! ### The validator's individual checks

Each syntactic check of `validateRequestBody`, as a standalone function,
used to state that the validator is exactly their short-circuiting
chain. -/

/-- Check 1: `model` present (truthy). -/
def checkModel (body : JValue) : Option ErrResp :=
  if !truthyOpt (body.getField "model") then
    some (createErrorResponse "model is required" "invalid_request_error" "model")
  else none

/-- Check 2: `messages` is a non-empty array. -/
def checkMessagesArr (body : JValue) : Option ErrResp :=
  match body.getField "messages" with
  | some (.jarr msgs) =>
    if msgs.length = 0 then
      some (createErrorResponse "messages array is required and cannot be empty"
        "invalid_request_error" "messages")
    else none
  | _ =>
    some (createErrorResponse "messages array is required and cannot be empty"
      "invalid_request_error" "messages")

/-- Check 3: the per-message loop (vacuous when `messages` is not an
array, in which case check 2 already fired). -/
def checkEachMessage (body : JValue) : Option ErrResp :=
  match body.getField "messages" with
  | some (.jarr msgs) => validateMessages msgs 0
  | _ => none

/-- Check 4: `temperature`, if present, is a number in [0, 2]. -/
def checkTemperature (body : JValue) : Option ErrResp :=
  if (match body.getField "temperature" with
      | none => false
      | some (.jnum q) => q < 0 || 2 < q
      | some _ => true) then
    some (createErrorResponse "temperature must be a number between 0 and 2"
      "invalid_request_error" "temperature")
  else none

/-- Check 5: `max_tokens`, if present, is a number ≥ 1. -/
def checkMaxTokens (body : JValue) : Option ErrResp :=
  if (match body.getField "max_tokens" with
      | none => false
      | some (.jnum q) => q < 1
      | some _ => true) then
    some (createErrorResponse "max_tokens must be a positive number"
      "invalid_request_error" "max_tokens")
  else none

/-- Check 6: `stream`, if present, is a boolean. -/
def checkStream (body : JValue) : Option ErrResp :=
  if (match body.getField "stream" with
      | none => false
      | some (.jbool _) => false
      | some _ => true) then
    some (createErrorResponse "stream must be a boolean value"
      "invalid_request_error" "stream")
  else none

/-- First `some` in a list of optional results: the semantics of a
short-circuiting check chain. -/
def firstSome : List (Option ErrResp) → Option ErrResp
  | [] => none
  | some e :: _ => some e
  | none :: rest => firstSome rest

/-- The validator's checks, in source order, applied to a body. -/
def validatorChain (body : JValue) : List (Option ErrResp) :=
  [checkModel body, checkMessagesArr body, checkEachMessage body,
   checkTemperature body, checkMaxTokens body, checkStream body]

/-! ## Token accounting and the non-streaming usage object -/

/-- A chat message as typed by `ChatCompletionRequest` (src/types.ts). -/
structure ChatMessage where
  role : String
  content : String
deriving DecidableEq, Repr

/-- `calculateTokens(text) = Math.ceil(text.length / 4)`
(src/utils.ts). -/
def calculateTokens (text : String) : Nat :=
  (text.length + 3) / 4

/-- The `usage` object of a non-streaming `ChatCompletionResponse`. -/
structure Usage where
  prompt_tokens : Nat
  completion_tokens : Nat
  total_tokens : Nat
deriving DecidableEq, Repr

/-- The usage computation of `createChatCompletion`
(src/controllers/chatController.ts, non-streaming path):
`promptTokens = body.messages.reduce((acc, msg) => acc + calculateTokens(msg.content), 0)`,
`completionTokens = calculateTokens(content)`, total is their sum. -/
def buildUsage (messages : List ChatMessage) (content : String) : Usage :=
  let promptTokens := messages.foldl (fun acc msg => acc + calculateTokens msg.content) 0
  let completionTokens := calculateTokens content
  ⟨promptTokens, completionTokens, promptTokens + completionTokens⟩

/-! ## Completion Engine (src/services/aiService.ts) -/

/-- The capability flags of a catalog model (`capabilities` object of
models.json); only `chat` is consulted by `generateChatCompletion`. -/
structure Capabilities where
  chat : Bool
deriving DecidableEq, Repr

/-- A model registry entry: `modelInfo.capabilities?.chat` is falsy
both when `capabilities` is absent and when `chat` is false. -/
structure AIModel where
  id : String
  capabilities : Option Capabilities
deriving DecidableEq, Repr

/-- `modelInfo.capabilities?.chat` truthiness. -/
def AIModel.chatCapable (m : AIModel) : Bool :=
  match m.capabilities with
  | some caps => caps.chat
  | none => false

/-- The non-streaming reply of the upstream `ai.run` call, as consulted
by the engine: the engine checks `!response || !response.response` and
then uses `response.response` as the completion text.  `none` models a
falsy reply; `response = none` models an absent or falsy `response`
field (including the empty string). -/
structure UpstreamReply where
  response : Option String
deriving DecidableEq, Repr

/-- Is `response.response` truthy (a non-empty completion text)? -/
def UpstreamReply.responseText (r : UpstreamReply) : Option String :=
  match r.response with
  | some s => if s = "" then none else some s
  | none => none

/-- The non-streaming result `{ content, finishReason }`. -/
structure EngineResult where
  content : String
  finishReason : String
deriving DecidableEq, Repr

/-- The error-or-result core of
`AIService.generateChatCompletion(params)` on the non-streaming path,
with the registry (`modelsData.models`) and the upstream reply made
explicit.  `Except.error` carries the message of the thrown `Error`:

* unknown model id → `Model <id> not found`;
* capability set lacking `chat` → `Model <id> does not support chat completions`;
* message list empty after `filter(msg => msg.content && msg.content !== '')`
  → `No valid messages with content found`;
* falsy reply or falsy `response` field → `Invalid response from AI service`. -/
def generateChatCompletion (registry : List AIModel) (model : String)
    (messages : List ChatMessage) (upstream : Option UpstreamReply) :
    Except String EngineResult :=
  match registry.find? (fun m => m.id = model) with
  | none => .error ("Model " ++ model ++ " not found")
  | some modelInfo =>
    if !modelInfo.chatCapable then
      .error ("Model " ++ model ++ " does not support chat completions")
    else
      let validMessages := messages.filter (fun msg => msg.content ≠ "")
      if validMessages.length = 0 then
        .error "No valid messages with content found"
      else
        match upstream with
        | none => .error "Invalid response from AI service"
        | some reply =>
          match reply.responseText with
          | none => .error "Invalid response from AI service"
          | some content => .ok ⟨content, "stop"⟩

/-- What the chat controller hands back for a non-streaming request that
passed validation: the completion payload, or the error envelope built
in the controller's `catch` block. -/
inductive CtrlResult where
  | ok (content finishReason : String) (usage : Usage)
  | errEnvelope (status : Nat) (errType : String) (message : String)
deriving DecidableEq, Repr

/-- The non-streaming tail of `ChatController.createChatCompletion`
(src/controllers/chatController.ts): run the engine; on success build
the completion with its usage object; any thrown error is caught and
returned as a status-500 envelope with type `server_error` and the
error's message. -/
def chatCompletionOutcome (registry : List AIModel) (model : String)
    (messages : List ChatMessage) (upstream : Option UpstreamReply) : CtrlResult :=
  match generateChatCompletion registry model messages upstream with
  | .error msg => .errEnvelope 500 "server_error" msg
  | .ok r => .ok r.content r.finishReason (buildUsage messages r.content)

/-! ## Streaming transcoder (src/controllers/chatController.ts)

The `start(controller)` callback of the transformed `ReadableStream`:
decoded upstream text is accumulated in `buffer`, complete lines are
split off at each `\n` and fed to `processChunk`; at upstream `done` the
leftover buffer is flushed through `processChunk`, one terminal chunk
(`delta:{}`, `finish_reason:"stop"`) and the `data: [DONE]` sentinel are
emitted and the stream closes; if `reader.read()` itself throws, the
`catch` errors the output stream instead.

`JSON.parse` followed by the `data.response` truthiness test is
abstracted as `parse : String → ParseResult`; `crypto.randomUUID()` is
modelled by a counter (the source generates one fresh id per
successfully parsed line — shared by the role chunk and content chunk
built from that line — and one more for the terminal chunk).  Each
emitted chunk is collapsed to the fields the source varies: the
constructors fix `object`, `delta` shape and `finish_reason`
(`role`/`content` carry `finish_reason: null`, `terminal` carries
`delta:{}` and `finish_reason:"stop"`); `created` timestamps are wall
clock and not modelled. -/

/-- Result of `JSON.parse(jsonStr)` combined with the `data.response`
truthiness test: `fail` models a thrown parse error, `ok (some s)` a
parsed event whose `response` field is a truthy fragment `s`, `ok none`
a parsed event without a truthy `response` field. -/
inductive ParseResult where
  | fail
  | ok (response : Option String)
deriving DecidableEq, Repr

/-- Is the parse successful? -/
def ParseResult.isOk : ParseResult → Bool
  | .fail => false
  | .ok _ => true

/-- One outbound SSE event of the transformed stream. -/
inductive OutEvent where
  /-- role-priming chunk: `delta.role = "assistant"`, `finish_reason: null`. -/
  | role (id : Nat)
  /-- content chunk: `delta.content = text`, `finish_reason: null`. -/
  | content (id : Nat) (text : String)
  /-- terminal chunk: `delta: {}`, `finish_reason: "stop"`. -/
  | terminal (id : Nat)
  /-- the `data: [DONE]` sentinel. -/
  | done
  /-- `controller.error(...)`: the output stream is errored. -/
  | streamError
deriving DecidableEq, Repr

/-- The chunk identifier, for chunks that carry one. -/
def OutEvent.idOf : OutEvent → Option Nat
  | .role n => some n
  | .content n _ => some n
  | .terminal n => some n
  | .done => none
  | .streamError => none

/-- Is this a role-priming chunk? -/
def OutEvent.isRole : OutEvent → Bool
  | .role _ => true
  | _ => false

/-- Is this a content chunk? -/
def OutEvent.isContent : OutEvent → Bool
  | .content _ _ => true
  | _ => false

/-- Is this a role or content chunk (the only events `processChunk`
emits)? -/
def OutEvent.isRoleOrContent : OutEvent → Bool
  | .role _ => true
  | .content _ _ => true
  | _ => false

/-- Transcoder state: the `sentRole` flag and the number of
`crypto.randomUUID()` calls made so far (the next fresh id). -/
structure TState where
  sentRole : Bool
  nextId : Nat
deriving DecidableEq, Repr

/-- `chunk.startsWith('data: ') ? chunk.slice(6) : chunk`, on the
character sequence. -/
def stripData (chunk : String) : String :=
  if "data: ".toList.isPrefixOf chunk.toList then String.mk (chunk.toList.drop 6)
  else chunk

/-- `processChunk(chunk)` from the `start` callback: strip the `data: `
prefix, skip empty and `[DONE]` payloads, parse; a parse failure is
caught, logged and skipped; otherwise one fresh id is drawn, a
role-priming chunk is emitted first if none has been, and a content
chunk is emitted if the event carries a truthy `response` fragment. -/
def processChunk (parse : String → ParseResult) (st : TState) (chunk : String) :
    TState × List OutEvent :=
  let jsonStr := stripData chunk
  if jsonStr = "" || jsonStr = "[DONE]" then (st, [])
  else
    match parse jsonStr with
    | .fail => (st, [])
    | .ok response =>
      let chunkId := st.nextId
      let roleEvents : List OutEvent := if !st.sentRole then [.role chunkId] else []
      let contentEvents : List OutEvent :=
        match response with
        | some s => [.content chunkId s]
        | none => []
      (⟨true, chunkId + 1⟩, roleEvents ++ contentEvents)

/-- Split a character buffer at every `'\n'`, as the
`while (buffer.includes('\n'))` loop does: the complete lines in order,
and the remaining partial line. -/
def splitLines : List Char → List (List Char) × List Char
  | [] => ([], [])
  | c :: rest =>
    let r := splitLines rest
    if c = '\n' then ([] :: r.1, r.2)
    else
      match r.1 with
      | [] => ([], c :: r.2)
      | l :: ls => ((c :: l) :: ls, r.2)

/-- Feed the complete lines to `processChunk`, skipping empty lines
(`if (line)`). -/
def processLines (parse : String → ParseResult) (st : TState) :
    List (List Char) → TState × List OutEvent
  | [] => (st, [])
  | line :: rest =>
    if line = [] then processLines parse st rest
    else
      let r := processChunk parse st (String.mk line)
      let r2 := processLines parse r.1 rest
      (r2.1, r.2 ++ r2.2)

/-- The read loop over the decoded upstream texts: append each text to
the buffer, split off and process every complete line.  Returns the
state, the leftover buffer and the events emitted so far. -/
def runChunks (parse : String → ParseResult) (st : TState) (buffer : List Char) :
    List String → TState × List Char × List OutEvent
  | [] => (st, buffer, [])
  | text :: rest =>
    let split := splitLines (buffer ++ text.toList)
    let r := processLines parse st split.1
    let r2 := runChunks parse r.1 split.2 rest
    (r2.1, r2.2.1, r.2 ++ r2.2.2)

/-- The whole transformed stream: process the decoded upstream texts;
if the upstream stream ends cleanly (`done`), flush a non-empty leftover
buffer through `processChunk`, then emit the terminal chunk (with a
fresh id) and the `data: [DONE]` sentinel; if the upstream read throws
(`clean = false`), the catch block errors the output stream instead. -/
def transcode (parse : String → ParseResult) (chunks : List String) (clean : Bool) :
    List OutEvent :=
  let r := runChunks parse ⟨false, 0⟩ [] chunks
  if clean then
    let flush :=
      if r.2.1 ≠ [] then processChunk parse r.1 (String.mk r.2.1) else (r.1, [])
    r.2.2 ++ flush.2 ++ [.terminal flush.1.nextId, .done]
  else
    r.2.2 ++ [.streamError]

/-- A concrete stand-in for the host `JSON.parse` + `data.response`
truthiness test, on exactly the payloads used in the concrete scenarios
below; each equation is what `JSON.parse` gives on that input
(`{"response":"Hi"}` parses with truthy response `"Hi"`;
`{"notresponse":1}` parses but has no `response` field; `not json` makes
`JSON.parse` throw). -/
def demoParse (s : String) : ParseResult :=
  if s = "\x7b\"response\":\"Hi\"\x7d" then .ok (some "Hi")
  else if s = "\x7b\"response\":\" there\"\x7d" then .ok (some " there")
  else if s = "\x7b\"notresponse\":1\x7d" then .ok none
  else .fail

/-- The identifier carried by the event at position `i` of an output
sequence (`none` when the position is out of range or the event carries
no id). -/
def idAt (out : List OutEvent) (i : Nat) : Option Nat :=
  (out.get? i).bind OutEvent.idOf

/-- Two positions of an output sequence carry the same generated
identifier only when they are an adjacent pair consisting of a
role-priming chunk immediately followed by a content chunk (the pair a
single upstream line produces). -/
def SameIdOnlyAdjacentRoleContent (out : List OutEvent) : Prop :=
  ∀ i j a b k, i < j → out.get? i = some a → out.get? j = some b →
    a.idOf = some k → b.idOf = some k →
    j = i + 1 ∧ a.isRole = true ∧ b.isContent = true

/-- Invariant for a segment of transcoder output produced while the
fresh-id counter ran from `n` to `m`: only role/content chunks, all ids
within `[n, m)`, and identifier sharing only between an adjacent
role-content pair. -/
def GoodSeg (n : Nat) (evts : List OutEvent) (m : Nat) : Prop :=
  n ≤ m ∧
  (∀ e ∈ evts, e.isRoleOrContent = true) ∧
  (∀ e ∈ evts, ∀ k, e.idOf = some k → n ≤ k ∧ k < m) ∧
  SameIdOnlyAdjacentRoleContent evts

/-- A rate-limit store with no records. -/
def emptyStore : Store := fun _ => none

/-- A rate-limit store in which credential `k` has exhausted its window
(100 requests counted since epoch second 0). -/
def fullStore : Store :=
  fun key => if key = "ratelimit:k" then some (⟨100, 0⟩, 3600) else none

/-! ## General lemmas about the transcoder -/

/-- Unfolding `processLines` on a non-empty line. -/
theorem processLines_cons (parse : String → ParseResult) (st : TState)
    (line : List Char) (rest : List (List Char)) (h : ¬ line = []) :
    processLines parse st (line :: rest) =
      ((processLines parse (processChunk parse st (String.mk line)).1 rest).1,
       (processChunk parse st (String.mk line)).2 ++
         (processLines parse (processChunk parse st (String.mk line)).1 rest).2) := by
  conv_lhs => rw [processLines]
  rw [if_neg h]

/-- `processLines` skips an empty line. -/
theorem processLines_empty (parse : String → ParseResult) (st : TState)
    (rest : List (List Char)) :
    processLines parse st ([] :: rest) = processLines parse st rest := by
  conv_lhs => rw [processLines]
  rw [if_pos rfl]

/-- The five possible results of `processChunk`: nothing (skipped or
unparseable line, state untouched); parsed with nothing to emit; a lone
role chunk; a lone content chunk; or a role chunk immediately followed
by the content chunk of the same line, sharing its one fresh id. -/
theorem processChunk_shape (parse : String → ParseResult) (st : TState) (chunk : String) :
    processChunk parse st chunk = (st, []) ∨
    (st.sentRole = true ∧ processChunk parse st chunk = (⟨true, st.nextId + 1⟩, [])) ∨
    (st.sentRole = false ∧
      processChunk parse st chunk = (⟨true, st.nextId + 1⟩, [.role st.nextId])) ∨
    (st.sentRole = true ∧ ∃ s,
      processChunk parse st chunk = (⟨true, st.nextId + 1⟩, [.content st.nextId s])) ∨
    (st.sentRole = false ∧ ∃ s,
      processChunk parse st chunk =
        (⟨true, st.nextId + 1⟩, [.role st.nextId, .content st.nextId s])) := by
  obtain ⟨sr, n⟩ := st
  unfold processChunk
  dsimp only
  split
  · exact Or.inl rfl
  · cases hp : parse (stripData chunk) with
    | fail => exact Or.inl rfl
    | ok response =>
      cases sr with
      | false =>
        cases response with
        | none => exact Or.inr (Or.inr (Or.inl ⟨rfl, rfl⟩))
        | some s => exact Or.inr (Or.inr (Or.inr (Or.inr ⟨rfl, s, rfl⟩)))
      | true =>
        cases response with
        | none => exact Or.inr (Or.inl ⟨rfl, rfl⟩)
        | some s => exact Or.inr (Or.inr (Or.inr (Or.inl ⟨rfl, s, rfl⟩)))

/-- A position holding an event is in range. -/
theorem lt_length_of_get?_some {l : List OutEvent} {n : Nat} {a : OutEvent}
    (h : l.get? n = some a) : n < l.length := by
  by_contra hn
  rw [List.get?_eq_none.mpr (Nat.le_of_not_lt hn)] at h
  exact Option.noConfusion h

/-- The empty segment is good. -/
theorem GoodSeg_nil (n : Nat) : GoodSeg n [] n := by
  refine ⟨le_rfl, ?_, ?_, ?_⟩
  · intro e he; cases he
  · intro e he; cases he
  · intro i j a b k _ hi _ _ _
    exact absurd hi (by simp)

/-- Concatenating good segments over adjacent counter ranges yields a
good segment. -/
theorem GoodSeg_append {n m p : Nat} {e₁ e₂ : List OutEvent}
    (h₁ : GoodSeg n e₁ m) (h₂ : GoodSeg m e₂ p) : GoodSeg n (e₁ ++ e₂) p := by
  obtain ⟨hnm, hrc₁, hid₁, hadj₁⟩ := h₁
  obtain ⟨hmp, hrc₂, hid₂, hadj₂⟩ := h₂
  refine ⟨le_trans hnm hmp, ?_, ?_, ?_⟩
  · intro e he
    rcases List.mem_append.mp he with h | h
    · exact hrc₁ e h
    · exact hrc₂ e h
  · intro e he k hk
    rcases List.mem_append.mp he with h | h
    · obtain ⟨h1, h2⟩ := hid₁ e h k hk
      exact ⟨h1, lt_of_lt_of_le h2 hmp⟩
    · obtain ⟨h1, h2⟩ := hid₂ e h k hk
      exact ⟨le_trans hnm h1, h2⟩
  · intro i j a b k hij hi hj ha hb
    by_cases hi1 : i < e₁.length
    · by_cases hj1 : j < e₁.length
      · rw [List.get?_append hi1] at hi
        rw [List.get?_append hj1] at hj
        exact hadj₁ i j a b k hij hi hj ha hb
      · rw [List.get?_append hi1] at hi
        rw [List.get?_append_right (Nat.le_of_not_lt hj1)] at hj
        have hka := (hid₁ a (List.get?_mem hi) k ha).2
        have hkb := (hid₂ b (List.get?_mem hj) k hb).1
        exact absurd (lt_of_lt_of_le hka hkb) (lt_irrefl k)
    · have hi1' := Nat.le_of_not_lt hi1
      have hj1' : e₁.length ≤ j := le_trans hi1' (Nat.le_of_lt hij)
      rw [List.get?_append_right hi1'] at hi
      rw [List.get?_append_right hj1'] at hj
      have hij' : i - e₁.length < j - e₁.length := by omega
      obtain ⟨hj2, hra, hrb⟩ := hadj₂ _ _ a b k hij' hi hj ha hb
      exact ⟨by omega, hra, hrb⟩

/-- A lone role or content chunk with id `n` is a good segment for the
counter step `n → n + 1`. -/
theorem GoodSeg_single {e : OutEvent} {n : Nat} (hrc : e.isRoleOrContent = true)
    (hid : e.idOf = some n) : GoodSeg n [e] (n + 1) := by
  refine ⟨Nat.le_succ n, ?_, ?_, ?_⟩
  · intro x hx
    rcases List.mem_singleton.mp hx with rfl
    exact hrc
  · intro x hx k hk
    rcases List.mem_singleton.mp hx with rfl
    rw [hid] at hk
    cases hk
    omega
  · intro i j a b k hij hi hj _ _
    have hjl := lt_length_of_get?_some hj
    simp only [List.length_singleton] at hjl
    omega

/-- The role-content pair a single line produces is a good segment. -/
theorem GoodSeg_pair {n : Nat} {s : String} :
    GoodSeg n [.role n, .content n s] (n + 1) := by
  refine ⟨Nat.le_succ n, ?_, ?_, ?_⟩
  · intro x hx
    rcases List.mem_cons.mp hx with rfl | hx
    · rfl
    · rcases List.mem_singleton.mp hx with rfl
      rfl
  · intro x hx k hk
    rcases List.mem_cons.mp hx with rfl | hx
    · cases hk; omega
    · rcases List.mem_singleton.mp hx with rfl
      cases hk; omega
  · intro i j a b k hij hi hj _ _
    have hjl := lt_length_of_get?_some hj
    have : j = 1 := by simp at hjl; omega
    subst this
    have : i = 0 := by omega
    subst this
    simp only [List.get?] at hi hj
    cases hi; cases hj
    exact ⟨rfl, rfl, rfl⟩

/-- `processChunk` turns a state with counter `n` into a good segment
ending at the new counter. -/
theorem processChunk_goodSeg (parse : String → ParseResult) (st : TState) (chunk : String) :
    GoodSeg st.nextId (processChunk parse st chunk).2
      (processChunk parse st chunk).1.nextId := by
  rcases processChunk_shape parse st chunk with h | ⟨_, h⟩ | ⟨_, h⟩ | ⟨_, s, h⟩ | ⟨_, s, h⟩ <;>
    rw [h]
  · exact GoodSeg_nil _
  · exact ⟨Nat.le_succ _, fun e he => absurd he (List.not_mem_nil e),
      fun e he => absurd he (List.not_mem_nil e),
      fun i j a b k _ hi _ _ _ => absurd hi (by simp)⟩
  · exact GoodSeg_single rfl rfl
  · exact GoodSeg_single rfl rfl
  · exact GoodSeg_pair

/-- `processLines` turns a state with counter `n` into a good segment
ending at the new counter. -/
theorem processLines_goodSeg (parse : String → ParseResult) :
    ∀ (lines : List (List Char)) (st : TState),
      GoodSeg st.nextId (processLines parse st lines).2
        (processLines parse st lines).1.nextId
  | [], st => GoodSeg_nil st.nextId
  | line :: rest, st => by
    by_cases h : line = []
    · subst h
      rw [processLines_empty]
      exact processLines_goodSeg parse rest st
    · rw [processLines_cons parse st line rest h]
      exact GoodSeg_append (processChunk_goodSeg parse st (String.mk line))
        (processLines_goodSeg parse rest (processChunk parse st (String.mk line)).1)

/-- `runChunks` turns a state with counter `n` into a good segment
ending at the new counter. -/
theorem runChunks_goodSeg (parse : String → ParseResult) :
    ∀ (chunks : List String) (st : TState) (buffer : List Char),
      GoodSeg st.nextId (runChunks parse st buffer chunks).2.2
        (runChunks parse st buffer chunks).1.nextId
  | [], st, _ => GoodSeg_nil st.nextId
  | text :: rest, st, buffer => by
    conv in runChunks parse st buffer (text :: rest) => rw [runChunks]
    exact GoodSeg_append
      (processLines_goodSeg parse (splitLines (buffer ++ text.toList)).1 st)
      (runChunks_goodSeg parse rest _ (splitLines (buffer ++ text.toList)).2)

/-- Appending a tail whose identifiers are all at least the segment's
upper bound (such as the terminal chunk, the `[DONE]` sentinel or a
stream error) preserves the identifier-sharing discipline, provided the
tail obeys it on its own. -/
theorem SameId_append_tail {n m : Nat} {evts tail : List OutEvent}
    (hg : GoodSeg n evts m)
    (htail_adj : SameIdOnlyAdjacentRoleContent tail)
    (htail_ids : ∀ e ∈ tail, ∀ k, e.idOf = some k → m ≤ k) :
    SameIdOnlyAdjacentRoleContent (evts ++ tail) := by
  obtain ⟨_, _, hid, hadj⟩ := hg
  intro i j a b k hij hi hj ha hb
  by_cases hi1 : i < evts.length
  · by_cases hj1 : j < evts.length
    · rw [List.get?_append hi1] at hi
      rw [List.get?_append hj1] at hj
      exact hadj i j a b k hij hi hj ha hb
    · rw [List.get?_append hi1] at hi
      rw [List.get?_append_right (Nat.le_of_not_lt hj1)] at hj
      have hka := (hid a (List.get?_mem hi) k ha).2
      have hkb := htail_ids b (List.get?_mem hj) k hb
      exact absurd (lt_of_lt_of_le hka hkb) (lt_irrefl k)
  · have hi1' := Nat.le_of_not_lt hi1
    have hj1' : evts.length ≤ j := le_trans hi1' (Nat.le_of_lt hij)
    rw [List.get?_append_right hi1'] at hi
    rw [List.get?_append_right hj1'] at hj
    have hij' : i - evts.length < j - evts.length := by omega
    obtain ⟨hj2, hra, hrb⟩ := htail_adj _ _ a b k hij' hi hj ha hb
    exact ⟨by omega, hra, hrb⟩

/-- The terminal chunk followed by the sentinel shares no identifiers
internally. -/
theorem SameId_terminal_done (m : Nat) :
    SameIdOnlyAdjacentRoleContent [OutEvent.terminal m, OutEvent.done] := by
  intro i j a b k hij hi hj ha hb
  have hjl := lt_length_of_get?_some hj
  have : j = 1 := by simp at hjl; omega
  subst this
  have : i = 0 := by omega
  subst this
  simp only [List.get?] at hi hj
  cases hi; cases hj
  exact absurd hb (by simp [OutEvent.idOf])

/-- A lone stream-error event shares no identifiers internally. -/
theorem SameId_streamError :
    SameIdOnlyAdjacentRoleContent [OutEvent.streamError] := by
  intro i j a b k hij hi hj _ _
  have hjl := lt_length_of_get?_some hj
  simp at hjl
  omega

/-- Decomposition of a cleanly terminated transcoding run: some
role/content chunks forming a good segment, then exactly one terminal
chunk (with an id at the segment's upper bound) and the sentinel. -/
theorem transcode_clean_decomp (parse : String → ParseResult) (chunks : List String) :
    ∃ pre m, transcode parse chunks true = pre ++ [.terminal m, .done] ∧
      GoodSeg 0 pre m := by
  unfold transcode
  dsimp only
  set r := runChunks parse ⟨false, 0⟩ [] chunks with hr
  have hrun : GoodSeg 0 r.2.2 r.1.nextId := runChunks_goodSeg parse chunks ⟨false, 0⟩ []
  by_cases hbuf : r.2.1 ≠ []
  · rw [if_pos hbuf]
    refine ⟨r.2.2 ++ (processChunk parse r.1 (String.mk r.2.1)).2,
      (processChunk parse r.1 (String.mk r.2.1)).1.nextId, ?_, ?_⟩
    · rw [if_pos rfl, List.append_assoc]
    · exact GoodSeg_append hrun (processChunk_goodSeg parse r.1 (String.mk r.2.1))
  · rw [if_neg hbuf]
    exact ⟨r.2.2 ++ [], r.1.nextId, by rw [if_pos rfl, List.append_assoc], by
      rw [List.append_nil]; exact hrun⟩

/-- Decomposition of a run cut short by an upstream read failure: the
chunks emitted so far (a good segment), then the stream error; no
terminal chunk, no sentinel. -/
theorem transcode_err_decomp (parse : String → ParseResult) (chunks : List String) :
    ∃ pre m, transcode parse chunks false = pre ++ [.streamError] ∧
      GoodSeg 0 pre m := by
  unfold transcode
  dsimp only
  exact ⟨(runChunks parse ⟨false, 0⟩ [] chunks).2.2,
    (runChunks parse ⟨false, 0⟩ [] chunks).1.nextId, rfl,
    runChunks_goodSeg parse chunks ⟨false, 0⟩ []⟩

/-! ## General lemmas about the rate limiter -/

theorem crl_fresh (hdr : String) (s : Store) (now : Nat)
    (hne : ¬ limiterKey hdr = "")
    (habs : s ("ratelimit:" ++ limiterKey hdr) = none) :
    checkRateLimit (some hdr) s now =
      (.info ⟨RATE_LIMIT_CONST - 1, now + WINDOW_SIZE, RATE_LIMIT_CONST⟩,
       fun k => if k = "ratelimit:" ++ limiterKey hdr then some (⟨1, now⟩, WINDOW_SIZE)
                else s k) := by
  unfold checkRateLimit
  dsimp only
  rw [if_neg hne, habs]
  dsimp only
  rw [if_neg (by decide : ¬ RATE_LIMIT_CONST ≤ 0)]

theorem crl_active (hdr : String) (s : Store) (now j t0 ttl : Nat)
    (hne : ¬ limiterKey hdr = "")
    (hs : s ("ratelimit:" ++ limiterKey hdr) = some (⟨j, t0⟩, ttl))
    (hw : now < t0 + WINDOW_SIZE) (hj : j < RATE_LIMIT_CONST) :
    checkRateLimit (some hdr) s now =
      (.info ⟨RATE_LIMIT_CONST - (j + 1), t0 + WINDOW_SIZE, RATE_LIMIT_CONST⟩,
       fun k => if k = "ratelimit:" ++ limiterKey hdr then some (⟨j + 1, t0⟩, WINDOW_SIZE)
                else s k) := by
  have hW : WINDOW_SIZE = 3600 := rfl
  unfold checkRateLimit
  dsimp only
  rw [if_neg hne, hs]
  dsimp only
  rw [if_neg (show ¬ WINDOW_SIZE ≤ now - t0 by rw [hW] at hw ⊢; omega)]
  rw [if_neg (Nat.not_le.mpr hj)]

theorem crl_denied (hdr : String) (s : Store) (now j t0 ttl : Nat)
    (hne : ¬ limiterKey hdr = "")
    (hs : s ("ratelimit:" ++ limiterKey hdr) = some (⟨j, t0⟩, ttl))
    (hw : now < t0 + WINDOW_SIZE) (hj : RATE_LIMIT_CONST ≤ j) :
    checkRateLimit (some hdr) s now =
      (.errResp 429 "rate_limit_error" "Rate limit exceeded"
        [("X-RateLimit-Limit", toString RATE_LIMIT_CONST),
         ("X-RateLimit-Remaining", "0"),
         ("X-RateLimit-Reset", toString (t0 + WINDOW_SIZE))], s) := by
  have hW : WINDOW_SIZE = 3600 := rfl
  unfold checkRateLimit
  dsimp only
  rw [if_neg hne, hs]
  dsimp only
  rw [if_neg (show ¬ WINDOW_SIZE ≤ now - t0 by rw [hW] at hw ⊢; omega)]
  rw [if_pos hj]

theorem crl_expired (hdr : String) (s : Store) (now j t0 ttl : Nat)
    (hne : ¬ limiterKey hdr = "")
    (hs : s ("ratelimit:" ++ limiterKey hdr) = some (⟨j, t0⟩, ttl))
    (hw : t0 + WINDOW_SIZE ≤ now) :
    checkRateLimit (some hdr) s now =
      (.info ⟨RATE_LIMIT_CONST - 1, now + WINDOW_SIZE, RATE_LIMIT_CONST⟩,
       fun k => if k = "ratelimit:" ++ limiterKey hdr then some (⟨1, now⟩, WINDOW_SIZE)
                else s k) := by
  have hW : WINDOW_SIZE = 3600 := rfl
  unfold checkRateLimit
  dsimp only
  rw [if_neg hne, hs]
  dsimp only
  rw [if_pos (show WINDOW_SIZE ≤ now - t0 by rw [hW] at hw ⊢; omega)]
  rw [if_neg (by decide : ¬ RATE_LIMIT_CONST ≤ 0)]

theorem runRequests_window (hdr : String) (hne : ¬ limiterKey hdr = "") :
    ∀ (ts : List Nat) (j t0 : Nat) (s : Store),
      s ("ratelimit:" ++ limiterKey hdr) = some (⟨j, t0⟩, WINDOW_SIZE) →
      (∀ t ∈ ts, t < t0 + WINDOW_SIZE) →
      j + ts.length ≤ RATE_LIMIT_CONST →
      (∀ i r, (runRequests (some hdr) s ts).1.get? i = some r →
         r = .info ⟨RATE_LIMIT_CONST - (j + i + 1), t0 + WINDOW_SIZE, RATE_LIMIT_CONST⟩) ∧
      (runRequests (some hdr) s ts).2 ("ratelimit:" ++ limiterKey hdr) =
        some (⟨j + ts.length, t0⟩, WINDOW_SIZE) := by
  intro ts
  induction ts with
  | nil =>
    intro j t0 s hs _ _
    exact ⟨fun i r hi => absurd hi (by simp [runRequests]), by
      simp only [runRequests, List.length_nil, Nat.add_zero]; exact hs⟩
  | cons t ts ih =>
    intro j t0 s hs hts hlen
    have hw : t < t0 + WINDOW_SIZE := hts t (List.mem_cons_self t ts)
    have hj : j < RATE_LIMIT_CONST := by
      have := hlen; simp only [List.length_cons] at this; omega
    have hstep := crl_active hdr s t j t0 WINDOW_SIZE hne hs hw hj
    have hs' : (fun k => if k = "ratelimit:" ++ limiterKey hdr
          then some ((⟨j + 1, t0⟩ : RateLimitData), WINDOW_SIZE) else s k)
          ("ratelimit:" ++ limiterKey hdr) = some (⟨j + 1, t0⟩, WINDOW_SIZE) := by
      simp
    obtain ⟨ih1, ih2⟩ := ih (j + 1) t0
      (fun k => if k = "ratelimit:" ++ limiterKey hdr
        then some ((⟨j + 1, t0⟩ : RateLimitData), WINDOW_SIZE) else s k)
      hs' (fun x hx => hts x (List.mem_cons_of_mem t hx))
      (by simp only [List.length_cons] at hlen ⊢; omega)
    constructor
    · intro i r hi
      conv at hi => rw [runRequests]
      rw [hstep] at hi
      dsimp only at hi
      match i, hi with
      | 0, hi =>
        simp only [List.get?] at hi
        cases hi
        rfl
      | (i' + 1), hi =>
        simp only [List.get?] at hi
        have := ih1 i' r hi
        rw [this]
        have harith : j + 1 + i' + 1 = j + (i' + 1) + 1 := by omega
        rw [harith]
    · conv_lhs => rw [runRequests]
      rw [hstep]
      dsimp only
      rw [ih2]
      have harith : j + 1 + ts.length = j + (ts.length + 1) := by omega
      rw [harith]
      rfl

/-! ## The claims -/

/-- **C1** — Streaming path: for an upstream byte-stream whose decoded
lines are `data: {"response":"Hi"}` and `data: {"response":" there"}`
followed by clean stream end, the transcoder emits exactly: one
role-priming chunk (`delta.role="assistant"`, `finish_reason` null), a
content chunk `"Hi"`, a content chunk `" there"`, one terminal chunk
(empty delta, `finish_reason:"stop"`), then the `data: [DONE]` sentinel,
in that order; and the role chunk appears exactly once even when empty
lines are interleaved.  Stated for every host JSON parser that decodes
the two payloads the way `JSON.parse` does. -/
theorem c1_streaming_sequence (parse : String → ParseResult)
    (h1 : parse "\x7b\"response\":\"Hi\"\x7d" = .ok (some "Hi"))
    (h2 : parse "\x7b\"response\":\" there\"\x7d" = .ok (some " there")) :
    transcode parse ["data: \x7b\"response\":\"Hi\"\x7d\n", "data: \x7b\"response\":\" there\"\x7d\n"] true =
      [.role 0, .content 0 "Hi", .content 1 " there", .terminal 2, .done] ∧
    transcode parse
        ["data: \x7b\"response\":\"Hi\"\x7d\n", "\n", "data: \x7b\"response\":\" there\"\x7d\n", "\n"] true =
      [.role 0, .content 0 "Hi", .content 1 " there", .terminal 2, .done] := by
  have k1 : processChunk parse ⟨false, 0⟩ "data: \x7b\"response\":\"Hi\"\x7d" =
      (⟨true, 1⟩, [.role 0, .content 0 "Hi"]) := by
    have hs : stripData "data: \x7b\"response\":\"Hi\"\x7d" = "\x7b\"response\":\"Hi\"\x7d" := by decide
    unfold processChunk; dsimp only; rw [hs, h1]; rfl
  have k2 : processChunk parse ⟨true, 1⟩ "data: \x7b\"response\":\" there\"\x7d" =
      (⟨true, 2⟩, [.content 1 " there"]) := by
    have hs : stripData "data: \x7b\"response\":\" there\"\x7d" = "\x7b\"response\":\" there\"\x7d" := by decide
    unfold processChunk; dsimp only; rw [hs, h2]; rfl
  have e1 : splitLines (([] : List Char) ++ "data: \x7b\"response\":\"Hi\"\x7d\n".toList) =
      (["data: \x7b\"response\":\"Hi\"\x7d".toList], []) := by decide
  have e2 : splitLines (([] : List Char) ++ "data: \x7b\"response\":\" there\"\x7d\n".toList) =
      (["data: \x7b\"response\":\" there\"\x7d".toList], []) := by decide
  have e3 : splitLines (([] : List Char) ++ "\n".toList) = ([[]], []) := by decide
  have m1 : String.mk "data: \x7b\"response\":\"Hi\"\x7d".toList = "data: \x7b\"response\":\"Hi\"\x7d" := rfl
  have m2 : String.mk "data: \x7b\"response\":\" there\"\x7d".toList =
      "data: \x7b\"response\":\" there\"\x7d" := rfl
  constructor
  · simp only [transcode, runChunks, e1, e2]
    rw [processLines_cons parse _ _ _ (by decide)]
    rw [processLines_cons parse _ _ _ (by decide)]
    simp only [processLines]
    rw [m1, k1]
    dsimp only
    rw [m2, k2]
    rfl
  · simp only [transcode, runChunks, e1, e2, e3]
    rw [processLines_cons parse _ _ _ (by decide)]
    simp only [processLines_empty]
    rw [processLines_cons parse _ _ _ (by decide)]
    simp only [processLines]
    rw [m1, k1]
    dsimp only
    rw [m2, k2]
    rfl

/-- Witness for C1: the two hypotheses are discharged by the concrete
parser model `demoParse`. -/
theorem c1_streaming_sequence_witness :
    transcode demoParse
        ["data: \x7b\"response\":\"Hi\"\x7d\n", "data: \x7b\"response\":\" there\"\x7d\n"] true =
      [.role 0, .content 0 "Hi", .content 1 " there", .terminal 2, .done] ∧
    transcode demoParse
        ["data: \x7b\"response\":\"Hi\"\x7d\n", "\n", "data: \x7b\"response\":\" there\"\x7d\n", "\n"] true =
      [.role 0, .content 0 "Hi", .content 1 " there", .terminal 2, .done] :=
  c1_streaming_sequence demoParse (by decide) (by decide)

/-- **C10** — The rate limiter writes to the store only on allowed
requests: whenever `checkRateLimit` returns an error response (missing
credential or window exhausted), the store it returns is exactly the
store it was given. -/
theorem c10_denied_no_write (authHeader : Option String) (s : Store) (now : Nat)
    (h : (checkRateLimit authHeader s now).1.isErr = true) :
    (checkRateLimit authHeader s now).2 = s := by
  rcases authHeader with _ | hdr
  · rfl
  · unfold checkRateLimit at h ⊢
    dsimp only at h ⊢
    split
    next hk => rfl
    next hk =>
      split
      next hcount => rfl
      next hcount =>
        rw [if_neg hk, if_neg hcount] at h
        exact absurd h (by simp [RLOutcome.isErr])

/-- Witness for C10: the 101st request of a credential whose window
already counts 100 is denied and leaves the store untouched. -/
theorem c10_denied_no_write_witness :
    (checkRateLimit (some "Bearer k") fullStore 50).2 = fullStore :=
  c10_denied_no_write (some "Bearer k") fullStore 50 (by decide)

/-- **C2** — Fixed-window rate limiting (limit 100, window 3600 s): for
every credential and every run of requests inside one window starting
from no stored record, the N-th request (N ≤ 100) is allowed with
`remaining = 100 − N`, `reset = windowStart + 3600`, `total = 100`, and
the record is persisted as `{count: N, windowStart}` with expiry equal to
the window size; after 100 requests a further request in the same window
is denied with HTTP 429, type `rate_limit_error`,
`X-RateLimit-Remaining "0"` and `X-RateLimit-Reset = windowStart + 3600`,
and a record whose age has reached the window size is reset to
`{count: 0, windowStart: now}` before counting. -/
theorem c2_rate_limit_window (hdr : String) (hne : ¬ limiterKey hdr = "")
    (s0 : Store) (h0 : s0 ("ratelimit:" ++ limiterKey hdr) = none)
    (t0 : Nat) (ts : List Nat) (hts : ∀ t ∈ ts, t < t0 + WINDOW_SIZE)
    (hn : (t0 :: ts).length ≤ RATE_LIMIT_CONST) :
    (∀ i r, (runRequests (some hdr) s0 (t0 :: ts)).1.get? i = some r →
        r = .info ⟨RATE_LIMIT_CONST - (i + 1), t0 + WINDOW_SIZE, RATE_LIMIT_CONST⟩) ∧
    (runRequests (some hdr) s0 (t0 :: ts)).2 ("ratelimit:" ++ limiterKey hdr) =
        some (⟨(t0 :: ts).length, t0⟩, WINDOW_SIZE) ∧
    ((t0 :: ts).length = RATE_LIMIT_CONST →
      ∀ t, t < t0 + WINDOW_SIZE →
        checkRateLimit (some hdr) (runRequests (some hdr) s0 (t0 :: ts)).2 t =
          (.errResp 429 "rate_limit_error" "Rate limit exceeded"
            [("X-RateLimit-Limit", toString RATE_LIMIT_CONST),
             ("X-RateLimit-Remaining", "0"),
             ("X-RateLimit-Reset", toString (t0 + WINDOW_SIZE))],
           (runRequests (some hdr) s0 (t0 :: ts)).2)) ∧
    (∀ (s : Store) (now c tsOld ttl : Nat),
        s ("ratelimit:" ++ limiterKey hdr) = some (⟨c, tsOld⟩, ttl) →
        tsOld + WINDOW_SIZE ≤ now →
        checkRateLimit (some hdr) s now =
          (.info ⟨RATE_LIMIT_CONST - 1, now + WINDOW_SIZE, RATE_LIMIT_CONST⟩,
           fun k => if k = "ratelimit:" ++ limiterKey hdr
                    then some (⟨1, now⟩, WINDOW_SIZE) else s k)) := by
  have hfresh := crl_fresh hdr s0 t0 hne h0
  have hs1 : (fun k => if k = "ratelimit:" ++ limiterKey hdr
        then some ((⟨1, t0⟩ : RateLimitData), WINDOW_SIZE) else s0 k)
        ("ratelimit:" ++ limiterKey hdr) = some (⟨1, t0⟩, WINDOW_SIZE) := by simp
  obtain ⟨main1, main2⟩ := runRequests_window hdr hne ts 1 t0
    (fun k => if k = "ratelimit:" ++ limiterKey hdr
      then some ((⟨1, t0⟩ : RateLimitData), WINDOW_SIZE) else s0 k)
    hs1 hts (by simp only [List.length_cons] at hn; omega)
  have hrun : runRequests (some hdr) s0 (t0 :: ts) =
      ((RLOutcome.info ⟨RATE_LIMIT_CONST - 1, t0 + WINDOW_SIZE, RATE_LIMIT_CONST⟩) ::
        (runRequests (some hdr)
          (fun k => if k = "ratelimit:" ++ limiterKey hdr
            then some ((⟨1, t0⟩ : RateLimitData), WINDOW_SIZE) else s0 k) ts).1,
       (runRequests (some hdr)
          (fun k => if k = "ratelimit:" ++ limiterKey hdr
            then some ((⟨1, t0⟩ : RateLimitData), WINDOW_SIZE) else s0 k) ts).2) := by
    conv_lhs => rw [runRequests]
    rw [hfresh]
  have hstore : (runRequests (some hdr) s0 (t0 :: ts)).2 ("ratelimit:" ++ limiterKey hdr) =
      some (⟨(t0 :: ts).length, t0⟩, WINDOW_SIZE) := by
    rw [hrun]
    dsimp only
    rw [main2]
    have : 1 + ts.length = (t0 :: ts).length := by simp [Nat.add_comm]
    rw [this]
  refine ⟨?_, hstore, ?_, ?_⟩
  · intro i r hi
    rw [hrun] at hi
    dsimp only at hi
    match i, hi with
    | 0, hi =>
      simp only [List.get?] at hi
      cases hi
      rfl
    | (i' + 1), hi =>
      simp only [List.get?] at hi
      have := main1 i' r hi
      rw [this]
      have harith : 1 + i' + 1 = i' + 1 + 1 := by omega
      rw [harith]
  · intro hfull t ht
    have hs : (runRequests (some hdr) s0 (t0 :: ts)).2 ("ratelimit:" ++ limiterKey hdr) =
        some (⟨RATE_LIMIT_CONST, t0⟩, WINDOW_SIZE) := by rw [hstore, hfull]
    exact crl_denied hdr _ t RATE_LIMIT_CONST t0 WINDOW_SIZE hne hs ht le_rfl
  · intro s now c tsOld ttl hs hw
    exact crl_expired hdr s now c tsOld ttl hne hs hw

/-- Witness for C2: a single request with credential `k` on an empty
store at epoch second 0. -/
theorem c2_rate_limit_window_witness :
    (∀ i r, (runRequests (some "Bearer k") emptyStore [0]).1.get? i = some r →
        r = .info ⟨RATE_LIMIT_CONST - (i + 1), 0 + WINDOW_SIZE, RATE_LIMIT_CONST⟩) ∧
    (runRequests (some "Bearer k") emptyStore [0]).2 ("ratelimit:" ++ limiterKey "Bearer k") =
        some (⟨([0] : List Nat).length, 0⟩, WINDOW_SIZE) ∧
    (([0] : List Nat).length = RATE_LIMIT_CONST →
      ∀ t, t < 0 + WINDOW_SIZE →
        checkRateLimit (some "Bearer k") (runRequests (some "Bearer k") emptyStore [0]).2 t =
          (.errResp 429 "rate_limit_error" "Rate limit exceeded"
            [("X-RateLimit-Limit", toString RATE_LIMIT_CONST),
             ("X-RateLimit-Remaining", "0"),
             ("X-RateLimit-Reset", toString (0 + WINDOW_SIZE))],
           (runRequests (some "Bearer k") emptyStore [0]).2)) ∧
    (∀ (s : Store) (now c tsOld ttl : Nat),
        s ("ratelimit:" ++ limiterKey "Bearer k") = some (⟨c, tsOld⟩, ttl) →
        tsOld + WINDOW_SIZE ≤ now →
        checkRateLimit (some "Bearer k") s now =
          (.info ⟨RATE_LIMIT_CONST - 1, now + WINDOW_SIZE, RATE_LIMIT_CONST⟩,
           fun k => if k = "ratelimit:" ++ limiterKey "Bearer k"
                    then some (⟨1, now⟩, WINDOW_SIZE) else s k)) :=
  c2_rate_limit_window "Bearer k" (by decide) emptyStore rfl 0 []
    (by intro t ht; cases ht) (by decide)

/-- **C3 counterexample** — The two gates do not parse the Authorization
header identically: the authenticator's case-insensitive pattern accepts
`bearer x` and captures the token `x`, while the rate limiter's
case-sensitive `replace('Bearer ', '')` leaves the header untouched and
uses `bearer x` as the credential. -/
theorem c3_parse_agreement_cex :
    bearerCapture "bearer x" = some "x" ∧
    limiterKey "bearer x" = "bearer x" ∧
    ¬ ("x" : String) = "bearer x" :=
  ⟨by decide, by decide, by decide⟩

/-- **C3 amended** — The token captured by the Authenticator and the
credential extracted by the Rate Limiter agree exactly on headers of the
canonical shape `Bearer <token>` (capital B, a single ASCII space, the
token non-empty, not starting with whitespace and free of line
terminators); on other accepted spellings, such as a lowercase scheme,
the two gates disagree. -/
theorem c3_parse_agreement_amended (c : Char) (cs : List Char)
    (hc : isJsSpace c = false)
    (hlt : ∀ d ∈ c :: cs, isLineTerm d = false) :
    bearerCapture ("Bearer " ++ String.mk (c :: cs)) = some (String.mk (c :: cs)) ∧
    limiterKey ("Bearer " ++ String.mk (c :: cs)) = String.mk (c :: cs) := by
  have htl : ("Bearer " ++ String.mk (c :: cs)).toList =
      'B' :: 'e' :: 'a' :: 'r' :: 'e' :: 'r' :: ' ' :: c :: cs := rfl
  constructor
  · simp only [bearerCapture]
    rw [htl]
    rw [show ('B' :: 'e' :: 'a' :: 'r' :: 'e' :: 'r' :: ' ' :: c :: cs).take 6 =
      ['B', 'e', 'a', 'r', 'e', 'r'] from rfl]
    rw [if_pos (by decide :
      (['B', 'e', 'a', 'r', 'e', 'r'].map Char.toLower = "bearer".toList))]
    rw [show ('B' :: 'e' :: 'a' :: 'r' :: 'e' :: 'r' :: ' ' :: c :: cs).drop 6 =
      ' ' :: c :: cs from rfl]
    rw [List.takeWhile_cons_of_pos (by decide : isJsSpace ' ' = true)]
    rw [List.takeWhile_cons_of_neg (by rw [hc]; exact Bool.false_ne_true : ¬ isJsSpace c = true)]
    rw [if_neg (by decide : ¬ ([' '].isEmpty = true))]
    rw [show List.drop [' '].length (' ' :: c :: cs) = c :: cs from rfl]
    rw [if_pos (by simp : (c :: cs) ≠ ([] : List Char))]
    rw [if_pos (by
      rw [List.all_eq_true]
      intro d hd
      rw [hlt d hd]
      rfl : ((c :: cs).all fun d => !isLineTerm d) = true)]
  · unfold limiterKey
    rw [htl]
    conv_lhs => rw [stripFirstOcc]
    rw [if_pos (show ("Bearer ".toList.isPrefixOf
      ('B' :: 'e' :: 'a' :: 'r' :: 'e' :: 'r' :: ' ' :: c :: cs)) = true from rfl)]
    rfl

/-- Witness for C3 amended: the canonical header `Bearer x`. -/
theorem c3_parse_agreement_amended_witness :
    bearerCapture "Bearer x" = some "x" ∧ limiterKey "Bearer x" = "x" :=
  c3_parse_agreement_amended 'x' [] (by decide)
    (by intro d hd; rcases List.mem_singleton.mp hd with rfl; decide)

/-- **C4 counterexample** — An upstream stream whose single decoded
event parses but carries no response fragment still produces a role
chunk: the claim that the role chunk is emitted only when a
content-bearing event arrives is false on the code. -/
theorem c4_role_priming_cex :
    transcode demoParse ["\x7b\"notresponse\":1\x7d\n"] true =
      [.role 0, .terminal 1, .done] ∧
    (transcode demoParse ["\x7b\"notresponse\":1\x7d\n"] true).any OutEvent.isContent = false ∧
    (transcode demoParse ["\x7b\"notresponse\":1\x7d\n"] true).any OutEvent.isRole = true :=
  ⟨by decide, by decide, by decide⟩

/-- **C4 amended** — The role-priming chunk is emitted on (and only on)
the first upstream line that parses successfully (a non-empty,
non-`[DONE]` payload accepted by the JSON decoder), whether or not that
line carries a response fragment; when the line does carry one, the role
chunk is immediately followed by that line's content chunk.  A stream
none of whose lines parse successfully produces no role chunk. -/
theorem c4_role_priming_amended :
    (∀ (parse : String → ParseResult) (st : TState) (chunk : String),
      (∃ e ∈ (processChunk parse st chunk).2, e.isRole = true) ↔
        (st.sentRole = false ∧ ¬ stripData chunk = "" ∧ ¬ stripData chunk = "[DONE]" ∧
         (parse (stripData chunk)).isOk = true)) ∧
    (∀ (parse : String → ParseResult) (st : TState) (chunk : String),
      (∃ e ∈ (processChunk parse st chunk).2, e.isRole = true) →
      (∃ e ∈ (processChunk parse st chunk).2, e.isContent = true) →
      ∃ s, (processChunk parse st chunk).2 = [.role st.nextId, .content st.nextId s]) ∧
    transcode demoParse ["\x7b\"notresponse\":1\x7d\n"] true = [.role 0, .terminal 1, .done] := by
  refine ⟨?_, ?_, by decide⟩
  · intro parse st chunk
    obtain ⟨sr, n⟩ := st
    unfold processChunk
    dsimp only
    split
    next hskip =>
      simp only [Bool.or_eq_true, decide_eq_true_eq] at hskip
      constructor
      · rintro ⟨e, he, _⟩
        exact absurd he (List.not_mem_nil e)
      · rintro ⟨_, hne, hnd, _⟩
        rcases hskip with h | h
        · exact absurd h hne
        · exact absurd h hnd
    next hskip =>
      simp only [Bool.or_eq_true, decide_eq_true_eq, not_or] at hskip
      cases hp : parse (stripData chunk) with
      | fail =>
        constructor
        · rintro ⟨e, he, _⟩
          exact absurd he (List.not_mem_nil e)
        · rintro ⟨_, _, _, hok⟩
          exact Bool.noConfusion hok
      | ok response =>
        cases sr with
        | false =>
          constructor
          · rintro _
            exact ⟨rfl, hskip.1, hskip.2, rfl⟩
          · rintro _
            exact ⟨.role n, by cases response <;> simp, rfl⟩
        | true =>
          constructor
          · rintro ⟨e, he, hrole⟩
            cases response with
            | none => exact absurd he (by simp)
            | some s =>
              simp only [Bool.not_true, List.nil_append] at he
              rcases List.mem_singleton.mp he with rfl
              exact Bool.noConfusion hrole
          · rintro ⟨hsr, _⟩
            exact Bool.noConfusion hsr
  · intro parse st chunk hrole hcontent
    rcases processChunk_shape parse st chunk with h | ⟨_, h⟩ | ⟨_, h⟩ | ⟨_, s, h⟩ | ⟨_, s, h⟩ <;>
        rw [h] at hrole hcontent ⊢
    · obtain ⟨e, he, _⟩ := hrole
      exact absurd he (List.not_mem_nil e)
    · obtain ⟨e, he, _⟩ := hrole
      exact absurd he (List.not_mem_nil e)
    · obtain ⟨e, he, hc⟩ := hcontent
      rcases List.mem_singleton.mp he with rfl
      exact Bool.noConfusion hc
    · obtain ⟨e, he, hr⟩ := hrole
      rcases List.mem_singleton.mp he with rfl
      exact Bool.noConfusion hr
    · exact ⟨s, rfl⟩

/-- Witness for C4 amended: on the first content-bearing line the role
chunk immediately precedes the content chunk. -/
theorem c4_role_priming_amended_witness :
    ∃ s, (processChunk demoParse ⟨false, 0⟩ "data: \x7b\"response\":\"Hi\"\x7d").2 =
      [.role 0, .content 0 s] :=
  c4_role_priming_amended.2.1 demoParse ⟨false, 0⟩ "data: \x7b\"response\":\"Hi\"\x7d"
    (by decide) (by decide)

/-! ## General lemmas about the validator -/

theorem validateRequestBody_eq_chain (body : JValue) :
    validateRequestBody body = firstSome (validatorChain body) := by
  unfold validateRequestBody validatorChain checkModel checkMessagesArr checkEachMessage
    checkTemperature checkMaxTokens checkStream
  split
  next => rfl
  next h =>
    split
    · split
      · rfl
      · split
        next e he => rw [he]; rfl
        next he =>
          rw [he]
          split
          · rfl
          · split
            · rfl
            · split
              · rfl
              · rfl
    · rfl

theorem validateMessages_first_bad (m : JValue) (post : List JValue)
    (hbad : ¬ (roleOk m = true ∧ contentOk m = true)) :
    ∀ (pre : List JValue) (idx : Nat),
      (∀ x ∈ pre, roleOk x = true ∧ contentOk x = true) →
      validateMessages (pre ++ m :: post) idx =
        some (if roleOk m then
          createErrorResponse ("message at index " ++ toString (idx + pre.length) ++
            " must have non-empty content string") "invalid_request_error" "messages"
        else
          createErrorResponse ("message at index " ++ toString (idx + pre.length) ++
            " has invalid role. Must be one of: system, user, assistant")
            "invalid_request_error" "messages")
  | [], idx, _ => by
    rw [List.nil_append]
    conv_lhs => rw [validateMessages]
    cases hrole : roleOk m with
    | false =>
      rw [if_pos (show (!false) = true from rfl)]
      simp [hrole]
    | true =>
      have hcont : contentOk m = false := by
        cases hcont : contentOk m
        · rfl
        · exact absurd ⟨hrole, hcont⟩ hbad
      rw [if_neg (show ¬ (!true) = true by simp)]
      rw [if_pos (by rw [hcont]; rfl)]
      simp [hrole]
  | x :: pre', idx, hpre => by
    obtain ⟨hr, hc⟩ := hpre x (List.mem_cons_self x pre')
    rw [List.cons_append]
    conv_lhs => rw [validateMessages]
    rw [if_neg (by rw [hr]; simp)]
    rw [if_neg (by rw [hc]; simp)]
    rw [validateMessages_first_bad m post hbad pre' (idx + 1)
      (fun y hy => hpre y (List.mem_cons_of_mem x hy))]
    have harith : idx + 1 + pre'.length = idx + (x :: pre').length := by
      simp [List.length_cons]; omega
    rw [harith]

theorem checkModel_spec (body : JValue) (e : ErrResp) (h : checkModel body = some e) :
    e = createErrorResponse "model is required" "invalid_request_error" "model" := by
  unfold checkModel at h
  split at h
  · cases h; rfl
  · cases h

theorem checkMessagesArr_spec (body : JValue) (e : ErrResp) (h : checkMessagesArr body = some e) :
    e = createErrorResponse "messages array is required and cannot be empty"
      "invalid_request_error" "messages" := by
  unfold checkMessagesArr at h
  split at h
  · split at h
    · cases h; rfl
    · cases h
  · cases h; rfl

theorem checkTemperature_spec (body : JValue) (e : ErrResp) (h : checkTemperature body = some e) :
    e = createErrorResponse "temperature must be a number between 0 and 2"
      "invalid_request_error" "temperature" := by
  unfold checkTemperature at h
  split at h
  · cases h; rfl
  · cases h

theorem checkMaxTokens_spec (body : JValue) (e : ErrResp) (h : checkMaxTokens body = some e) :
    e = createErrorResponse "max_tokens must be a positive number"
      "invalid_request_error" "max_tokens" := by
  unfold checkMaxTokens at h
  split at h
  · cases h; rfl
  · cases h

theorem checkStream_spec (body : JValue) (e : ErrResp) (h : checkStream body = some e) :
    e = createErrorResponse "stream must be a boolean value"
      "invalid_request_error" "stream" := by
  unfold checkStream at h
  split at h
  · cases h; rfl
  · cases h

theorem validateMessages_spec :
    ∀ (msgs : List JValue) (idx : Nat) (e : ErrResp), validateMessages msgs idx = some e →
      e.errType = "invalid_request_error" ∧ e.param = some "messages" ∧
      ∃ rest, e.message = "message at index " ++ rest
  | [], _, _, h => by cases h
  | m :: rest, idx, e, h => by
    conv at h => lhs; rw [validateMessages]
    split at h
    · cases h
      refine ⟨rfl, rfl, toString idx ++ " has invalid role. Must be one of: system, user, assistant", ?_⟩
      rw [String.append_assoc]
      rfl
    · split at h
      · cases h
        refine ⟨rfl, rfl, toString idx ++ " must have non-empty content string", ?_⟩
        rw [String.append_assoc]
        rfl
      · exact validateMessages_spec rest (idx + 1) e h

theorem checkEachMessage_spec (body : JValue) (e : ErrResp) (h : checkEachMessage body = some e) :
    e.errType = "invalid_request_error" ∧ e.param = some "messages" ∧
    ∃ rest, e.message = "message at index " ++ rest := by
  unfold checkEachMessage at h
  split at h
  · exact validateMessages_spec _ 0 e h
  · cases h

theorem msgIdx_ne_msgsArr (rest : String) :
    ¬ ("message at index " ++ rest) = "messages array is required and cannot be empty" := by
  intro h
  have hd : ("message at index " ++ rest).toList =
      "messages array is required and cannot be empty".toList := by rw [h]
  have h7 := congrArg (fun l => l.get? 7) hd
  dsimp only at h7
  rw [show ("message at index " ++ rest).toList =
    "message at index ".toList ++ rest.toList from rfl] at h7
  rw [List.get?_append (by decide : 7 < "message at index ".toList.length)] at h7
  exact absurd h7 (by decide)

example (a b c : Option ErrResp) (x : Option ErrResp) (h : [a, b, c].get? 2 = some x) : c = x := by
  simp only [List.get?] at h
  exact Option.some_inj.mp h

theorem validatorChain_distinct (body : JValue) (i j : Nat) (ei ej : ErrResp)
    (hij : i < j)
    (hi : (validatorChain body).get? i = some (some ei))
    (hj : (validatorChain body).get? j = some (some ej)) :
    ¬ (ei.message = ej.message ∧ ei.param = ej.param) := by
  have hlen : (validatorChain body).length = 6 := by
    simp only [validatorChain, List.length_cons, List.length_nil]
  have hjlen : j < 6 := by
    by_contra hc
    have hnone : (validatorChain body).get? j = none := by
      rw [List.get?_eq_none, hlen]
      omega
    rw [hnone] at hj
    cases hj
  have hilen : i < 6 := lt_trans hij hjlen
  interval_cases j <;> interval_cases i <;>
    simp only [validatorChain, List.get?, Option.some.injEq] at hi hj
  -- (0,1)
  · cases checkModel_spec _ _ hi; cases checkMessagesArr_spec _ _ hj; decide
  -- (0,2)
  · cases checkModel_spec _ _ hi
    obtain ⟨_, hp2, _⟩ := checkEachMessage_spec _ _ hj
    rintro ⟨_, hp⟩
    rw [hp2] at hp
    exact absurd hp (by decide)
  -- (1,2)
  · cases checkMessagesArr_spec _ _ hi
    obtain ⟨_, _, rest, hmsg⟩ := checkEachMessage_spec _ _ hj
    rintro ⟨hm, _⟩
    rw [hmsg] at hm
    exact msgIdx_ne_msgsArr rest hm.symm
  -- (0,3)
  · cases checkModel_spec _ _ hi; cases checkTemperature_spec _ _ hj; decide
  -- (1,3)
  · cases checkMessagesArr_spec _ _ hi; cases checkTemperature_spec _ _ hj; decide
  -- (2,3)
  · obtain ⟨_, hp2, _⟩ := checkEachMessage_spec _ _ hi
    cases checkTemperature_spec _ _ hj
    rintro ⟨_, hp⟩
    rw [hp2] at hp
    exact absurd hp (by decide)
  -- (0,4)
  · cases checkModel_spec _ _ hi; cases checkMaxTokens_spec _ _ hj; decide
  -- (1,4)
  · cases checkMessagesArr_spec _ _ hi; cases checkMaxTokens_spec _ _ hj; decide
  -- (2,4)
  · obtain ⟨_, hp2, _⟩ := checkEachMessage_spec _ _ hi
    cases checkMaxTokens_spec _ _ hj
    rintro ⟨_, hp⟩
    rw [hp2] at hp
    exact absurd hp (by decide)
  -- (3,4)
  · cases checkTemperature_spec _ _ hi; cases checkMaxTokens_spec _ _ hj; decide
  -- (0,5)
  · cases checkModel_spec _ _ hi; cases checkStream_spec _ _ hj; decide
  -- (1,5)
  · cases checkMessagesArr_spec _ _ hi; cases checkStream_spec _ _ hj; decide
  -- (2,5)
  · obtain ⟨_, hp2, _⟩ := checkEachMessage_spec _ _ hi
    cases checkStream_spec _ _ hj
    rintro ⟨_, hp⟩
    rw [hp2] at hp
    exact absurd hp (by decide)
  -- (3,5)
  · cases checkTemperature_spec _ _ hi; cases checkStream_spec _ _ hj; decide
  -- (4,5)
  · cases checkMaxTokens_spec _ _ hi; cases checkStream_spec _ _ hj; decide

/-- **C5 counterexample** — The per-message content check is JavaScript
truthiness, not "non-empty string": a message whose content is the
number 5 passes validation unchallenged, so the claim that the validator
demands non-empty *string* content is false on the code. -/
theorem c5_validator_cex :
    validateRequestBody (JValue.jobj [("model", JValue.jstr "m"),
      ("messages", JValue.jarr [JValue.jobj [("role", JValue.jstr "user"),
        ("content", JValue.jnum 5)]])]) = none := by decide

/-- **C5 amended** — The validator is exactly the short-circuiting chain
of its six checks in source order (model present; messages a non-empty
array; per message in sequence order, valid role then *truthy* content,
reporting the first offending index; temperature numeric in [0,2] if
present; max_tokens numeric ≥ 1 if present; stream boolean if present);
any two distinct checks that fire produce distinct (message, param)
pairs; and the three concrete examples give params `messages`,
`temperature` and `max_tokens`. -/
theorem c5_validator_amended :
    (∀ body : JValue, validateRequestBody body = firstSome (validatorChain body)) ∧
    (∀ (body : JValue) (i j : Nat) (ei ej : ErrResp), i < j →
      (validatorChain body).get? i = some (some ei) →
      (validatorChain body).get? j = some (some ej) →
      ¬ (ei.message = ej.message ∧ ei.param = ej.param)) ∧
    (∀ (m : JValue) (pre post : List JValue),
      (∀ x ∈ pre, roleOk x = true ∧ contentOk x = true) →
      ¬ (roleOk m = true ∧ contentOk m = true) →
      validateMessages (pre ++ m :: post) 0 =
        some (if roleOk m then
          createErrorResponse ("message at index " ++ toString pre.length ++
            " must have non-empty content string") "invalid_request_error" "messages"
        else
          createErrorResponse ("message at index " ++ toString pre.length ++
            " has invalid role. Must be one of: system, user, assistant")
            "invalid_request_error" "messages")) ∧
    validateRequestBody (JValue.jobj [("model", JValue.jstr "m"),
      ("messages", JValue.jarr [JValue.jobj [("role", JValue.jstr "bogus"),
        ("content", JValue.jstr "x")]])]) =
      some (createErrorResponse
        "message at index 0 has invalid role. Must be one of: system, user, assistant"
        "invalid_request_error" "messages") ∧
    validateRequestBody (JValue.jobj [("model", JValue.jstr "m"),
      ("messages", JValue.jarr [JValue.jobj [("role", JValue.jstr "user"),
        ("content", JValue.jstr "x")]]), ("temperature", JValue.jnum 3)]) =
      some (createErrorResponse "temperature must be a number between 0 and 2"
        "invalid_request_error" "temperature") ∧
    validateRequestBody (JValue.jobj [("model", JValue.jstr "m"),
      ("messages", JValue.jarr [JValue.jobj [("role", JValue.jstr "user"),
        ("content", JValue.jstr "x")]]), ("max_tokens", JValue.jnum 0)]) =
      some (createErrorResponse "max_tokens must be a positive number"
        "invalid_request_error" "max_tokens") := by
  refine ⟨validateRequestBody_eq_chain, validatorChain_distinct, ?_, by decide, by decide,
    by decide⟩
  intro m pre post hpre hbad
  have h := validateMessages_first_bad m post hbad pre 0 hpre
  rw [Nat.zero_add] at h
  exact h

/-- Witness for C5 amended: the first-offending-index conjunct applied
to a single message with a bogus role. -/
theorem c5_validator_amended_witness :
    validateMessages ([] ++ JValue.jobj [("role", JValue.jstr "bogus"),
        ("content", JValue.jstr "x")] :: []) 0 =
      some (if roleOk (JValue.jobj [("role", JValue.jstr "bogus"),
          ("content", JValue.jstr "x")]) then
        createErrorResponse ("message at index " ++ toString (List.length ([] : List JValue)) ++
          " must have non-empty content string") "invalid_request_error" "messages"
      else
        createErrorResponse ("message at index " ++ toString (List.length ([] : List JValue)) ++
          " has invalid role. Must be one of: system, user, assistant")
          "invalid_request_error" "messages") :=
  c5_validator_amended.2.2.1 (JValue.jobj [("role", JValue.jstr "bogus"),
      ("content", JValue.jstr "x")]) [] []
    (fun x hx => absurd hx (List.not_mem_nil x)) (by decide)

/-! ## General lemmas about token accounting -/

/-- `Math.ceil(n / 4)` computed as natural-number arithmetic agrees with
the rational ceiling. -/
theorem natCeilDivFour (n : Nat) : (((n + 3) / 4 : Nat) : ℤ) = ⌈(n : ℚ) / 4⌉ := by
  set q := (n + 3) / 4 with hqdef
  have h1 : 4 * q ≤ n + 3 := by omega
  have h2 : n + 3 < 4 * q + 4 := by omega
  have hq1 : (4 * q : ℚ) ≤ (n : ℚ) + 3 := by exact_mod_cast h1
  have hq2 : ((n : ℚ) + 3) < 4 * (q : ℚ) + 4 := by exact_mod_cast h2
  have h3 : n ≤ 4 * q := by omega
  have hq3 : (n : ℚ) ≤ 4 * (q : ℚ) := by exact_mod_cast h3
  symm
  rw [Int.ceil_eq_iff]
  push_cast
  constructor
  · rw [lt_div_iff (by norm_num : (0 : ℚ) < 4)]
    linarith
  · rw [div_le_iff (by norm_num : (0 : ℚ) < 4)]
    linarith

/-- `reduce((acc, msg) => acc + f(msg), 0)` is the sum of the mapped
list. -/
theorem foldl_add_calc (f : ChatMessage → Nat) :
    ∀ (l : List ChatMessage) (a : Nat),
      l.foldl (fun acc m => acc + f m) a = a + (l.map f).sum
  | [], a => by simp
  | m :: rest, a => by
    simp only [List.foldl_cons, List.map_cons, List.sum_cons]
    rw [foldl_add_calc f rest (a + f m)]
    omega

/-- **C6 counterexample** — `prompt_tokens` is the sum of per-message
ceilings, which differs from the ceiling of the total: messages of 39
and 1 characters total 40 characters yet yield `prompt_tokens = 11`
(and `total_tokens = 31`), not the 10 and 30 the claim computes from
`ceil(40/4)`. -/
theorem c6_usage_cex :
    (([⟨"user", "aaaaaaaaaaaaaaaaaaaaaaaaaaaaaaaaaaaaaaa"⟩,
       ⟨"user", "b"⟩] : List ChatMessage).map (fun m => m.content.length)).sum = 40 ∧
    buildUsage [⟨"user", "aaaaaaaaaaaaaaaaaaaaaaaaaaaaaaaaaaaaaaa"⟩, ⟨"user", "b"⟩]
        "cccccccccccccccccccccccccccccccccccccccccccccccccccccccccccccccccccccccccccccccc" =
      ⟨11, 20, 31⟩ :=
  ⟨by decide, by decide⟩

/-- **C6 amended** — For every non-streaming completion the usage object
satisfies `tokens(text) = ceil(length(text)/4)`, `prompt_tokens` = sum of
`tokens` over the request's message contents, `completion_tokens` =
`tokens` of the output text, `total_tokens` their sum; for a prompt
consisting of a single 40-character message and an 80-character
completion this gives exactly 10, 20 and 30 (for several messages the
per-message ceilings are summed, so a 40-character total need not give
10). -/
theorem c6_token_accounting_amended :
    (∀ (messages : List ChatMessage) (content : String),
      buildUsage messages content =
        ⟨(messages.map (fun m => calculateTokens m.content)).sum,
         calculateTokens content,
         (messages.map (fun m => calculateTokens m.content)).sum + calculateTokens content⟩) ∧
    (∀ t : String, (calculateTokens t : ℤ) = ⌈(t.length : ℚ) / 4⌉) ∧
    (∀ registry model messages upstream c f u,
      chatCompletionOutcome registry model messages upstream = .ok c f u →
      u = buildUsage messages c) ∧
    buildUsage [⟨"user", "dddddddddddddddddddddddddddddddddddddddd"⟩]
        "cccccccccccccccccccccccccccccccccccccccccccccccccccccccccccccccccccccccccccccccc" =
      ⟨10, 20, 30⟩ := by
  refine ⟨?_, ?_, ?_, by decide⟩
  · intro messages content
    unfold buildUsage
    rw [foldl_add_calc (fun m => calculateTokens m.content) messages 0, Nat.zero_add]
  · intro t
    exact natCeilDivFour t.length
  · intro registry model messages upstream c f u h
    unfold chatCompletionOutcome at h
    cases hg : generateChatCompletion registry model messages upstream with
    | error msg => rw [hg] at h; cases h
    | ok r => rw [hg] at h; cases h; rfl

/-- Witness for C6 amended: a successful completion's usage object is
the one `buildUsage` computes. -/
theorem c6_token_accounting_amended_witness :
    (⟨1, 1, 2⟩ : Usage) = buildUsage [⟨"user", "hi"⟩] "ok" :=
  c6_token_accounting_amended.2.2.1 [⟨"m", some ⟨true⟩⟩] "m" [⟨"user", "hi"⟩]
    (some ⟨some "ok"⟩) "ok" "stop" ⟨1, 1, 2⟩ (by decide)

/-- **C7** — Every Completion Engine failure (unknown model id, model
without the chat capability, message list empty after dropping empty
contents, absent or malformed upstream reply) is caught at the chat
controller boundary and returned as an HTTP 500 envelope with type
`server_error` carrying the thrown error's message; for an unknown model
id, that message names the missing model (`Model <id> not found`) —
there is no silent fallback. -/
theorem c7_engine_errors_500 :
    (∀ (registry : List AIModel) (model : String) (messages : List ChatMessage)
        (upstream : Option UpstreamReply) (msg : String),
      generateChatCompletion registry model messages upstream = .error msg →
      chatCompletionOutcome registry model messages upstream =
        .errEnvelope 500 "server_error" msg) ∧
    (∀ (registry : List AIModel) (model : String) (messages : List ChatMessage)
        (upstream : Option UpstreamReply),
      (∀ m ∈ registry, ¬ m.id = model) →
      chatCompletionOutcome registry model messages upstream =
        .errEnvelope 500 "server_error" ("Model " ++ model ++ " not found")) ∧
    (∀ (registry : List AIModel) (model : String) (messages : List ChatMessage)
        (upstream : Option UpstreamReply) (mi : AIModel),
      registry.find? (fun m => m.id = model) = some mi → mi.chatCapable = false →
      chatCompletionOutcome registry model messages upstream =
        .errEnvelope 500 "server_error"
          ("Model " ++ model ++ " does not support chat completions")) ∧
    (∀ (registry : List AIModel) (model : String) (messages : List ChatMessage)
        (upstream : Option UpstreamReply) (mi : AIModel),
      registry.find? (fun m => m.id = model) = some mi → mi.chatCapable = true →
      (∀ m ∈ messages, m.content = "") →
      chatCompletionOutcome registry model messages upstream =
        .errEnvelope 500 "server_error" "No valid messages with content found") ∧
    (∀ (registry : List AIModel) (model : String) (messages : List ChatMessage)
        (mi : AIModel),
      registry.find? (fun m => m.id = model) = some mi → mi.chatCapable = true →
      (∃ m ∈ messages, ¬ m.content = "") →
      chatCompletionOutcome registry model messages none =
        .errEnvelope 500 "server_error" "Invalid response from AI service" ∧
      ∀ reply : UpstreamReply, reply.responseText = none →
        chatCompletionOutcome registry model messages (some reply) =
          .errEnvelope 500 "server_error" "Invalid response from AI service") := by
  have hmain : ∀ (registry : List AIModel) (model : String) (messages : List ChatMessage)
      (upstream : Option UpstreamReply) (msg : String),
      generateChatCompletion registry model messages upstream = .error msg →
      chatCompletionOutcome registry model messages upstream =
        .errEnvelope 500 "server_error" msg := by
    intro registry model messages upstream msg h
    unfold chatCompletionOutcome
    rw [h]
  refine ⟨hmain, ?_, ?_, ?_, ?_⟩
  · intro registry model messages upstream h
    refine hmain _ _ _ _ _ ?_
    have hfind : registry.find? (fun m => m.id = model) = none :=
      List.find?_eq_none.mpr (fun x hx => by simpa using h x hx)
    unfold generateChatCompletion
    rw [hfind]
  · intro registry model messages upstream mi hfind hcap
    refine hmain _ _ _ _ _ ?_
    unfold generateChatCompletion
    rw [hfind]
    dsimp only
    rw [hcap]
    rfl
  · intro registry model messages upstream mi hfind hcap hempty
    refine hmain _ _ _ _ _ ?_
    have hfilter : messages.filter (fun msg => msg.content ≠ "") = [] :=
      List.filter_eq_nil.mpr (fun m hm => by simp [hempty m hm])
    unfold generateChatCompletion
    rw [hfind]
    dsimp only
    rw [hcap]
    rw [hfilter]
    rfl
  · intro registry model messages mi hfind hcap hne
    have hfilter : ¬ (messages.filter (fun msg => msg.content ≠ "")).length = 0 := by
      obtain ⟨m, hm, hmc⟩ := hne
      intro hlen
      rw [List.length_eq_zero] at hlen
      have := List.filter_eq_nil.mp hlen m hm
      simp [hmc] at this
    constructor
    · refine hmain _ _ _ _ _ ?_
      unfold generateChatCompletion
      rw [hfind]
      dsimp only
      rw [hcap]
      rw [if_neg hfilter]
      rfl
    · intro reply hreply
      refine hmain _ _ _ _ _ ?_
      unfold generateChatCompletion
      rw [hfind]
      dsimp only
      rw [hcap]
      rw [if_neg hfilter, hreply]
      rfl

/-- Witness for C7: an unknown model id yields the 500 `server_error`
envelope naming the model. -/
theorem c7_engine_errors_500_witness :
    chatCompletionOutcome [⟨"m1", some ⟨true⟩⟩] "gpt-x" [⟨"user", "hi"⟩] none =
      .errEnvelope 500 "server_error" ("Model " ++ "gpt-x" ++ " not found") :=
  c7_engine_errors_500.2.1 [⟨"m1", some ⟨true⟩⟩] "gpt-x" [⟨"user", "hi"⟩] none
    (by intro m hm; rcases List.mem_singleton.mp hm with rfl; decide)

/-- **C8** — A line whose payload fails to decode is skipped without
aborting the stream: `processChunk` leaves the state untouched and emits
nothing for it, so subsequent lines are processed as if it were absent;
every cleanly terminated response still ends with exactly one terminal
chunk followed by the `data: [DONE]` sentinel (preceded only by
role/content chunks); and only an upstream read failure errors the
output stream (no terminal chunk, no sentinel).  The concrete scenario:
a malformed line followed by a well-formed one still yields the full
role/content/terminal/done sequence. -/
theorem c8_malformed_line_skipped :
    (∀ (parse : String → ParseResult) (st : TState) (line : String),
      parse (stripData line) = .fail → processChunk parse st line = (st, [])) ∧
    (∀ (parse : String → ParseResult) (chunks : List String),
      ∃ pre n, transcode parse chunks true = pre ++ [.terminal n, .done] ∧
        ∀ e ∈ pre, e.isRoleOrContent = true) ∧
    (∀ (parse : String → ParseResult) (chunks : List String),
      ∃ pre, transcode parse chunks false = pre ++ [.streamError] ∧
        ∀ e ∈ pre, e.isRoleOrContent = true) ∧
    transcode demoParse ["not json\n", "data: \x7b\"response\":\"Hi\"\x7d\n"] true =
      [.role 0, .content 0 "Hi", .terminal 1, .done] := by
  refine ⟨?_, ?_, ?_, by decide⟩
  · intro parse st line h
    unfold processChunk
    dsimp only
    split
    · rfl
    · rw [h]
  · intro parse chunks
    obtain ⟨pre, m, heq, hg⟩ := transcode_clean_decomp parse chunks
    exact ⟨pre, m, heq, hg.2.1⟩
  · intro parse chunks
    obtain ⟨pre, m, heq, hg⟩ := transcode_err_decomp parse chunks
    exact ⟨pre, heq, hg.2.1⟩

/-- Witness for C8: the malformed line `not json` is skipped with the
state unchanged, and a concrete clean stream decomposes into chunks plus
terminal and sentinel. -/
theorem c8_malformed_line_skipped_witness :
    processChunk demoParse ⟨false, 0⟩ "not json" = (⟨false, 0⟩, []) ∧
    ∃ pre n, transcode demoParse ["data: \x7b\"response\":\"Hi\"\x7d\n"] true =
      pre ++ [.terminal n, .done] ∧ ∀ e ∈ pre, e.isRoleOrContent = true :=
  ⟨c8_malformed_line_skipped.1 demoParse ⟨false, 0⟩ "not json" (by decide),
   c8_malformed_line_skipped.2.1 demoParse ["data: \x7b\"response\":\"Hi\"\x7d\n"]⟩

/-- **C9 counterexample** — Not every pair of distinct chunks carries
distinct ids: the role-priming chunk and the content chunk produced from
the same upstream line share one generated identifier (the source
computes `chunkId` once per line and uses it for both). -/
theorem c9_unique_ids_cex :
    transcode demoParse ["data: \x7b\"response\":\"Hi\"\x7d\n"] true =
      [.role 0, .content 0 "Hi", .terminal 1, .done] ∧
    idAt (transcode demoParse ["data: \x7b\"response\":\"Hi\"\x7d\n"] true) 0 = some 0 ∧
    idAt (transcode demoParse ["data: \x7b\"response\":\"Hi\"\x7d\n"] true) 1 = some 0 ∧
    ¬ (transcode demoParse ["data: \x7b\"response\":\"Hi\"\x7d\n"] true).get? 0 =
      (transcode demoParse ["data: \x7b\"response\":\"Hi\"\x7d\n"] true).get? 1 :=
  ⟨by decide, by decide, by decide, by decide⟩

/-- **C9 amended** — Identifier discipline of the streaming path: two
distinct positions of the output carry the same generated id only when
they are the adjacent role-chunk/content-chunk pair produced from one
upstream line, which share that line's single fresh id; chunks from
different lines, and the terminal chunk, carry pairwise distinct ids
(each `processChunk` invocation stamps every chunk it emits with the one
id it draws). -/
theorem c9_unique_ids_amended :
    (∀ (parse : String → ParseResult) (chunks : List String) (clean : Bool),
      SameIdOnlyAdjacentRoleContent (transcode parse chunks clean)) ∧
    (∀ (parse : String → ParseResult) (st : TState) (chunk : String),
      ∀ e ∈ (processChunk parse st chunk).2, e.idOf = some st.nextId) := by
  constructor
  · intro parse chunks clean
    cases clean with
    | false =>
      obtain ⟨pre, m, heq, hg⟩ := transcode_err_decomp parse chunks
      rw [heq]
      refine SameId_append_tail hg SameId_streamError ?_
      intro e he k hk
      rcases List.mem_singleton.mp he with rfl
      cases hk
    | true =>
      obtain ⟨pre, m, heq, hg⟩ := transcode_clean_decomp parse chunks
      rw [heq]
      refine SameId_append_tail hg (SameId_terminal_done m) ?_
      intro e he k hk
      rcases List.mem_cons.mp he with rfl | he
      · cases hk
        exact le_rfl
      · rcases List.mem_singleton.mp he with rfl
        cases hk
  · intro parse st chunk e he
    rcases processChunk_shape parse st chunk with h | ⟨_, h⟩ | ⟨_, h⟩ | ⟨_, s, h⟩ | ⟨_, s, h⟩ <;>
        rw [h] at he
    · exact absurd he (List.not_mem_nil e)
    · exact absurd he (List.not_mem_nil e)
    · rcases List.mem_singleton.mp he with rfl
      rfl
    · rcases List.mem_singleton.mp he with rfl
      rfl
    · rcases List.mem_cons.mp he with rfl | he
      · rfl
      · rcases List.mem_singleton.mp he with rfl
        rfl

/-- Witness for C9 amended: the identifier discipline on a concrete
stream, and the shared fresh id of a concrete line's chunks. -/
theorem c9_unique_ids_amended_witness :
    SameIdOnlyAdjacentRoleContent
      (transcode demoParse ["data: \x7b\"response\":\"Hi\"\x7d\n"] true) ∧
    OutEvent.idOf (.role 0) = some (⟨false, 0⟩ : TState).nextId :=
  ⟨c9_unique_ids_amended.1 demoParse ["data: \x7b\"response\":\"Hi\"\x7d\n"] true,
   c9_unique_ids_amended.2 demoParse ⟨false, 0⟩ "data: \x7b\"response\":\"Hi\"\x7d"
     (.role 0) (by decide)⟩

end CFW
